import Mathlib

/-!
Shallow embedding of `src/predicate/predicate.py` (django-predicate).

The program evaluates boolean predicates (Django Q-style trees) against
in-memory object graphs.  Python values are modelled by the inductive `Val`;
Python exceptions (AttributeError/TypeError/KeyError/ValueError/...) are
modelled by `Option`, with `none` standing for "the call raised".
Python's lazily consumed generators combined with `any`/`all` are modelled by
the short-circuiting folds `pyAny`/`pyAll`, which stop at the first decisive
element and therefore never observe a crash that Python would not reach.
-/

/-- Python `any` over a lazily produced sequence of possibly-crashing boolean
elements: stops at the first `True`; a crash (`none`) is propagated only when
the generator is actually advanced to it. -/
def pyAny : List (Option Bool) → Option Bool
  | [] => some false
  | none :: _ => none
  | some true :: _ => some true
  | some false :: xs => pyAny xs

/-- Python `all` over a lazily produced sequence of possibly-crashing boolean
elements: stops at the first `False`. -/
def pyAll : List (Option Bool) → Option Bool
  | [] => some true
  | none :: _ => none
  | some false :: _ => some false
  | some true :: xs => pyAll xs

/-- `itertools.product`: cartesian product of a list of lists, leftmost factor
varying slowest (the iteration order used in `LookupNode.values`). -/
def cartProd {α : Type} : List (List α) → List (List α)
  | [] => [[]]
  | l :: ls => l.flatMap (fun x => (cartProd ls).map (fun combo => x :: combo))

/-- `str.lower` (`String.toLower` does not reduce in the kernel, so it is
implemented over the character list). -/
def strLower (s : String) : String := ⟨s.data.map Char.toLower⟩

/-- Python `needle in hay` for strings: contiguous substring search. -/
def hasSubstring : List Char → List Char → Bool
  | [], needle => needle.isEmpty
  | c :: rest, needle => needle.isPrefixOf (c :: rest) || hasSubstring rest needle

/-- Lexicographic `<` on character lists (Python 2 `str` comparison). -/
def strLtCh : List Char → List Char → Bool
  | [], [] => false
  | [], _ :: _ => true
  | _ :: _, [] => false
  | a :: as, b :: bs => decide (a.toNat < b.toNat) || (a == b && strLtCh as bs)

/-- The Python value domain used by the program: model-field values
(`None`, ints, strings, booleans, dates), filter literals (which may also be
tuples/lists, modelled by `vlist`), model instances (`obj`: a mapping from
field name to the list of values that resolving the field yields — one
element for a scalar field, many for a to-many relation, none for an empty
to-many relation), and the `GET` marker object from the source module. -/
inductive Val where
  | null
  | int (n : Int)
  | str (s : String)
  | vbool (b : Bool)
  | date (year month day isoweekday : Nat)
  | vlist (elems : List Val)
  | obj (fields : List (String × List Val))
  | get

mutual

/-- Python `==` on `Val` (mismatched types compare unequal, no exception).
Python identity-based equality of model instances, and `True == 1`, are
approximated structurally; no claim exercises those corners. -/
def Val.beq : Val → Val → Bool
  | .null, .null => true
  | .int a, .int b => a == b
  | .str a, .str b => a == b
  | .vbool a, .vbool b => a == b
  | .date y m d w, .date y' m' d' w' => y == y' && m == m' && d == d' && w == w'
  | .vlist xs, .vlist ys => Val.beqList xs ys
  | .obj fs, .obj gs => Val.beqFields fs gs
  | .get, .get => true
  | _, _ => false

def Val.beqList : List Val → List Val → Bool
  | [], [] => true
  | x :: xs, y :: ys => Val.beq x y && Val.beqList xs ys
  | _, _ => false

def Val.beqFields : List (String × List Val) → List (String × List Val) → Bool
  | [], [] => true
  | (n, vs) :: fs, (n', vs') :: gs => n == n' && Val.beqList vs vs' && Val.beqFields fs gs
  | _, _ => false

end

/-- Python truthiness (`if self.value:` in `_isnull`). -/
def pyTruthy : Val → Bool
  | .null => false
  | .int n => n != 0
  | .str s => !s.data.isEmpty
  | .vbool b => b
  | .date _ _ _ _ => true
  | .vlist vs => !vs.isEmpty
  | .obj _ => true
  | .get => true

/-- `x.lower()`: defined for strings, raises (`none`) otherwise. -/
def pyLowerS : Val → Option String
  | .str s => some (strLower s)
  | _ => none

/-- Python `a < b`.  Defined for int/int, str/str and date/date (the only
comparisons the program's documented lookups perform); Python 2's arbitrary
cross-type ordering is modelled as a raise (`none`) — no claim exercises it. -/
def pyLt : Val → Val → Option Bool
  | .int a, .int b => some (decide (a < b))
  | .str a, .str b => some (strLtCh a.data b.data)
  | .date y m d _, .date y' m' d' _ =>
      some (decide (y < y') ||
        (y == y' && (decide (m < m') || (m == m' && decide (d < d')))))
  | _, _ => none

/-- Python `a <= b`, same domain as `pyLt`. -/
def pyLe : Val → Val → Option Bool
  | .int a, .int b => some (decide (a ≤ b))
  | .str a, .str b => some (strLtCh a.data b.data || a.data == b.data)
  | .date y m d _, .date y' m' d' _ =>
      some (decide (y < y') ||
        (y == y' && (decide (m < m') || (m == m' && decide (d ≤ d')))))
  | _, _ => none

/-- Python `a in b` for a string or list container (`__contains__`);
anything else raises. -/
def pyIn (a b : Val) : Option Bool :=
  match b with
  | .str s =>
      match a with
      | .str sub => some (hasSubstring s.data sub.data)
      | _ => none
  | .vlist vs => some (vs.any (fun x => Val.beq x a))
  | _ => none

/-- `set(x)`: the elements of a list/tuple literal, or the one-character
strings of a string literal; anything else raises.  (CPython's hashability
requirement on the elements is not modelled; no claim exercises it.) -/
def pyToSetElems : Val → Option (List Val)
  | .vlist vs => some vs
  | .str s => some (s.data.map (fun c => Val.str ⟨[c]⟩))
  | _ => none

/-- The genexpr pattern `any(value is not None and STEP for value in values)`
shared by almost every comparison function of `LookupEvaluator`:
a `None` item short-circuits to `False` before STEP ever touches it. -/
def anyValue (step : Val → Option Bool) (values : List Val) : Option Bool :=
  pyAny (values.map (fun v => match v with
    | .null => some false
    | _ => step v))

namespace LookupEvaluator

/-- `_exact`: `self.value in values` — note: no `None` guard, so a `None`
literal matches a `None` item. -/
def exact (lit : Val) (values : List Val) : Option Bool :=
  some (values.any (fun v => Val.beq v lit))

/-- `_iexact`: lowercases both the literal and each non-`None` item. -/
def iexact (lit : Val) (values : List Val) : Option Bool :=
  match pyLowerS lit with
  | none => none
  | some expected =>
      anyValue (fun v =>
        match pyLowerS v with
        | none => none
        | some lv => some (expected == lv)) values

/-- `_contains`: `self.value in value` for each non-`None` item. -/
def contains (lit : Val) (values : List Val) : Option Bool :=
  anyValue (fun v => pyIn lit v) values

/-- `_icontains`: lowercases the literal but NOT the item
(`expected in value`) — mirrored exactly as written in the source. -/
def icontains (lit : Val) (values : List Val) : Option Bool :=
  match pyLowerS lit with
  | none => none
  | some expected => anyValue (fun v => pyIn (.str expected) v) values

/-- `_gt`: `value > self.value`. -/
def gt (lit : Val) (values : List Val) : Option Bool :=
  anyValue (fun v => pyLt lit v) values

/-- `_gte`: `value >= self.value`. -/
def gte (lit : Val) (values : List Val) : Option Bool :=
  anyValue (fun v => pyLe lit v) values

/-- `_lt`: `value < self.value`. -/
def lt (lit : Val) (values : List Val) : Option Bool :=
  anyValue (fun v => pyLt v lit) values

/-- `_lte`: `value <= self.value`. -/
def lte (lit : Val) (values : List Val) : Option Bool :=
  anyValue (fun v => pyLe v lit) values

/-- `_startswith`: `value.startswith(self.value)`, both sides raw. -/
def startswith (lit : Val) (values : List Val) : Option Bool :=
  anyValue (fun v =>
    match v, lit with
    | .str s, .str pre => some (pre.data.isPrefixOf s.data)
    | _, _ => none) values

/-- `_istartswith`: lowercases both sides. -/
def istartswith (lit : Val) (values : List Val) : Option Bool :=
  match pyLowerS lit with
  | none => none
  | some expected =>
      anyValue (fun v =>
        match v with
        | .str s => some (expected.data.isPrefixOf (s.data.map Char.toLower))
        | _ => none) values

/-- `_endswith`: `value.lower().endswith(self.value)` — the source lowercases
the item but NOT the literal; mirrored exactly. -/
def endswith (lit : Val) (values : List Val) : Option Bool :=
  anyValue (fun v =>
    match v, lit with
    | .str s, .str suf => some (suf.data.isSuffixOf (s.data.map Char.toLower))
    | _, _ => none) values

/-- `_iendswith`: lowercases both sides. -/
def iendswith (lit : Val) (values : List Val) : Option Bool :=
  match pyLowerS lit with
  | none => none
  | some expected =>
      anyValue (fun v =>
        match v with
        | .str s => some (expected.data.isSuffixOf (s.data.map Char.toLower))
        | _ => none) values

/-- `_in`: `bool(set(values) & set(self.value))` — non-empty set
intersection, again with no `None` guard. -/
def in_ (lit : Val) (values : List Val) : Option Bool :=
  match pyToSetElems lit with
  | none => none
  | some items => some (values.any (fun v => items.any (fun i => Val.beq i v)))

/-- `_range`: `self.value[0] < value < self.value[1]` — a Python chained
comparison, so `self.value[1]` is only subscripted when the first comparison
succeeds. -/
def range (lit : Val) (values : List Val) : Option Bool :=
  anyValue (fun v =>
    match lit with
    | .vlist (lo :: rest) =>
        (match pyLt lo v with
         | none => none
         | some false => some false
         | some true =>
             match rest with
             | hi :: _ => pyLt v hi
             | [] => none)
    | _ => none) values

/-- `_year`: `value.year == self.value` for each non-`None` item; items
without a `year` attribute raise. -/
def year (lit : Val) (values : List Val) : Option Bool :=
  anyValue (fun v =>
    match v with
    | .date y _ _ _ => some (Val.beq (.int (Int.ofNat y)) lit)
    | _ => none) values

/-- `_month`: `value.month == self.value`. -/
def month (lit : Val) (values : List Val) : Option Bool :=
  anyValue (fun v =>
    match v with
    | .date _ m _ _ => some (Val.beq (.int (Int.ofNat m)) lit)
    | _ => none) values

/-- `_day`: `value.day == self.value`. -/
def day (lit : Val) (values : List Val) : Option Bool :=
  anyValue (fun v =>
    match v with
    | .date _ _ d _ => some (Val.beq (.int (Int.ofNat d)) lit)
    | _ => none) values

/-- `_week_day`: `(value.isoweekday() % 7) + 1 == self.value` — Django's
Sunday=1..Saturday=7 numbering, not ISO. -/
def week_day (lit : Val) (values : List Val) : Option Bool :=
  anyValue (fun v =>
    match v with
    | .date _ _ _ wd => some (Val.beq (.int (Int.ofNat (wd % 7 + 1))) lit)
    | _ => none) values

/-- `_isnull`: if the literal is truthy, `None in values`, else
`None not in values`. -/
def isnull (lit : Val) (values : List Val) : Option Bool :=
  if pyTruthy lit then some (values.any (fun v => Val.beq v .null))
  else some (!(values.any (fun v => Val.beq v .null)))

/-- `_search`: delegates to `_contains`. -/
def search (lit : Val) (values : List Val) : Option Bool :=
  contains lit values

/-- `_regex`.  Modelled from the spec: Python's `re` engine is an external
library; per spec §4.4 a regex lookup is a "search-anywhere" match, modelled
here as substring search of the pattern text (metacharacter interpretation is
not modelled — no claim exercises it).  Compiling a non-string pattern
raises. -/
def regex (lit : Val) (values : List Val) : Option Bool :=
  match lit with
  | .str pat =>
      anyValue (fun v =>
        match v with
        | .str s => some (hasSubstring s.data pat.data)
        | _ => none) values
  | _ => none

/-- `_iregex`.  Modelled from the spec like `regex`, with `re.I`
case-insensitivity modelled by lowercasing both sides. -/
def iregex (lit : Val) (values : List Val) : Option Bool :=
  match lit with
  | .str pat =>
      anyValue (fun v =>
        match v with
        | .str s => some (hasSubstring (s.data.map Char.toLower) (pat.data.map Char.toLower))
        | _ => none) values
  | _ => none

/-- `getattr(evaluator, '_' + query)` followed by the call: dispatch on the
operator name; an unknown name raises `AttributeError` (`none`). -/
def test (query : String) (lit : Val) (values : List Val) : Option Bool :=
  if query = "exact" then exact lit values
  else if query = "iexact" then iexact lit values
  else if query = "contains" then contains lit values
  else if query = "icontains" then icontains lit values
  else if query = "gt" then gt lit values
  else if query = "gte" then gte lit values
  else if query = "lt" then lt lit values
  else if query = "lte" then lte lit values
  else if query = "in" then in_ lit values
  else if query = "startswith" then startswith lit values
  else if query = "istartswith" then istartswith lit values
  else if query = "endswith" then endswith lit values
  else if query = "iendswith" then iendswith lit values
  else if query = "range" then range lit values
  else if query = "year" then year lit values
  else if query = "month" then month lit values
  else if query = "day" then day lit values
  else if query = "week_day" then week_day lit values
  else if query = "isnull" then isnull lit values
  else if query = "search" then search lit values
  else if query = "regex" then regex lit values
  else if query = "iregex" then iregex lit values
  else none

end LookupEvaluator

/-- `QUERY_TERMS`: the closed set of recognized operator names. -/
def QUERY_TERMS : List String :=
  ["exact", "iexact", "contains", "icontains", "gt", "gte", "lt", "lte", "in",
   "startswith", "istartswith", "endswith", "iendswith", "range", "year",
   "month", "day", "week_day", "isnull", "search", "regex", "iregex"]

/-- `lookup.split(LOOKUP_SEP)`: split a character list on each non-overlapping
occurrence of `"__"`, left to right. -/
def splitLookup : List Char → List Char → List String
  | [], acc => [⟨acc.reverse⟩]
  | '_' :: '_' :: rest, acc => (⟨acc.reverse⟩ : String) :: splitLookup rest []
  | c :: rest, acc => splitLookup rest (c :: acc)

namespace LookupComponent

/-- `LookupComponent.parse`: the empty lookup stands for the leaf slot and
parses to no components; otherwise split on `LOOKUP_SEP`. -/
def parse (lookup : String) : List String :=
  if lookup = "" then [] else splitLookup lookup.data []

/-- `LookupComponent.is_query`: membership in `QUERY_TERMS`. -/
def is_query (c : String) : Bool := QUERY_TERMS.contains c

/-- `LookupComponent.values_list`: resolve one path component against an
instance.  `None` resolves to `[None]`; the empty component resolves to the
instance itself.  Field access (`obj._meta` / `getattr` in the source) is the
spec's external Object Graph Accessor; per its contract (spec §6) a present
field yields all its values (one for a scalar, many for a to-many relation,
none for an empty relation), and a "does not exist" condition yields
`[None]`. -/
def values_list (c : String) (v : Val) : List Val :=
  match v with
  | .null => [.null]
  | _ =>
    if c = "" then [v]
    else
      match v with
      | .obj fields =>
          match fields.lookup c with
          | some vs => vs
          | none => [.null]
      | _ => [.null]

end LookupComponent

/-- `LookupNode`: a trie keyed by path component.  The raw value the source
stores under the `EMPTY` child key is modelled by the `value` field
(`UNDEFINED` when absent, i.e. `none`); all other child keys are in
`children`. -/
inductive LookupNode where
  | mk (value : Option Val) (children : List (String × LookupNode))

/-- Dict read `children.get(component)`. -/
def lookupAssoc : List (String × LookupNode) → String → Option LookupNode
  | [], _ => none
  | (k, n) :: rest, c => if k = c then some n else lookupAssoc rest c

/-- Dict write `children[component] = node`: replace in place, or append. -/
def updateAssoc : List (String × LookupNode) → String → LookupNode → List (String × LookupNode)
  | [], k, v => [(k, v)]
  | (k', v') :: rest, k, v =>
      if k' = k then (k, v) :: rest else (k', v') :: updateAssoc rest k v

/-- `LookupNode.__setitem__` after parsing: walk/create a node per component
and set the terminal value on the final node (overwriting silently). -/
def LookupNode.setPath : LookupNode → List String → Val → LookupNode
  | .mk _ cs, [], v => .mk (some v) cs
  | .mk val cs, c :: rest, v =>
      let child := (lookupAssoc cs c).getD (.mk none [])
      .mk val (updateAssoc cs c (child.setPath rest v))

/-- `LookupNode.__setitem__`: `lookups[lookup] = value`. -/
def LookupNode.set (n : LookupNode) (lookup : String) (v : Val) : LookupNode :=
  n.setPath (LookupComponent.parse lookup) v

/-- `LookupNode.__getitem__` after parsing: walk existing nodes; a missing
component raises `KeyError` (`none`). -/
def LookupNode.getPath : LookupNode → List String → Option LookupNode
  | n, [] => some n
  | .mk _ cs, c :: rest =>
      match lookupAssoc cs c with
      | none => none
      | some child => child.getPath rest

/-- Rebuild the dotted path from a component prefix (`LOOKUP_SEP.join` of the
component stack). -/
def qualify (c : String) (p : String) : String :=
  if p = "" then c else c ++ "__" ++ p

mutual

/-- `LookupNode.iteritems`: depth-first `(dotted path, terminal value)`
pairs. -/
def LookupNode.items : LookupNode → List (String × Val)
  | .mk v cs =>
      (match v with | some x => [("", x)] | none => []) ++ LookupNode.itemsL cs

def LookupNode.itemsL : List (String × LookupNode) → List (String × Val)
  | [] => []
  | (c, n) :: rest =>
      (n.items.map (fun q => (qualify c q.1, q.2))) ++ LookupNode.itemsL rest

end

/-- The operator-stripping step of `convert_to_query_values_node`: drop the
final parsed component iff it names a recognized operator.  An empty
component list raises `IndexError` on `parsed[-1]` (`none`). -/
def strip_query (parsed : List String) : Option (List String) :=
  match parsed.getLast? with
  | none => none
  | some last =>
      some (if LookupComponent.is_query last then parsed.dropLast else parsed)

/-- `LookupNode.convert_to_query_values_node`: a version of the trie where
every stored path has its trailing operator component (if any) removed and
every terminal value replaced by the `GET` marker. -/
def LookupNode.convert_to_query_values_node (n : LookupNode) : Option LookupNode :=
  n.items.foldlM
    (fun acc item =>
      (strip_query (LookupComponent.parse item.1)).map
        (fun parsed => acc.setPath parsed .get))
    (.mk none [])

mutual

/-- `LookupNode.values`: fan-out / join.  Every child branch resolves to its
list of candidate sub-trees (recursing through each value the accessor
returns), and the cartesian product over all branches yields one result node
per combination; a present `EMPTY` child contributes the instance itself. -/
def LookupNode.values : LookupNode → Val → List LookupNode
  | .mk val cs, inst =>
      let combos :=
        cartProd ((LookupNode.branchesL cs inst).map
          (fun b => b.2.map (fun n => (b.1, n))))
      combos.map (fun picks => LookupNode.mk (val.map (fun _ => inst)) picks)

/-- The per-branch value lists of `LookupNode.values`
(`lookup2values` in the source). -/
def LookupNode.branchesL : List (String × LookupNode) → Val → List (String × List LookupNode)
  | [], _ => []
  | (c, child) :: rest, inst =>
      (c, (LookupComponent.values_list c inst).flatMap (fun o => child.values o))
        :: LookupNode.branchesL rest inst

end

/-- The row loop body of `LookupNode.eval`: a candidate row matches when, for
every `(lookup, value)` pair in it, every `(query, literal)` pair stored under
that lookup in the original trie passes (the empty query defaults to
`exact`). -/
def rowMatches (orig row : LookupNode) : Option Bool :=
  pyAll (row.items.map (fun item =>
    match orig.getPath (LookupComponent.parse item.1) with
    | none => none
    | some queries =>
        pyAll (queries.items.map (fun q =>
          LookupEvaluator.test (if q.1 = "" then "exact" else q.1) q.2 [item.2]))))

/-- `LookupNode.eval`: derive the `GET` trie, materialize the candidate rows,
and succeed iff some row fully matches (short-circuiting on the first). -/
def LookupNode.eval (n : LookupNode) (inst : Val) : Option Bool :=
  match n.convert_to_query_values_node with
  | none => none
  | some qn => pyAny ((qn.values inst).map (rowMatches n))

mutual

/-- `P` (a Django `Q` subclass): a predicate node with a connector string
(`"AND"`/`"OR"`), a negation flag and an ordered child list. -/
inductive P where
  | mk (connector : String) (negated : Bool) (children : List RawChild)

/-- A raw child of a predicate node: a nested predicate, a
`(lookup, value)` filter tuple, or any other object (which `eval_wrapper`
rejects with `ValueError`). -/
inductive RawChild where
  | pred (p : P)
  | pair (lookup : String) (value : Val)
  | other (tag : String)

end

mutual

/-- `P.eval`: look the connector up in `{"AND": all, "OR": any}` (an unknown
connector raises `KeyError`), run the evaluator over the children as produced
by `eval_wrapper`, and apply negation last. -/
def P.eval : P → Val → Option Bool
  | .mk conn neg children, inst =>
      if conn = "AND" ∨ conn = "OR" then
        match P.eval_wrapper conn inst children (.mk none []) with
        | none => none
        | some r => some (if neg then !r else r)
      else none

/-- `eval_wrapper` fused with the consuming `all`/`any`: the source's
generator yields each nested predicate as encountered, merges every filter
tuple into one `LookupNode`, raises `ValueError` on anything else, and yields
the merged node last; `all`/`any` consume it lazily, short-circuiting on the
first decisive child (so children past that point are never inspected). -/
def P.eval_wrapper : String → Val → List RawChild → LookupNode → Option Bool
  | _, inst, [], lookups => lookups.eval inst
  | conn, inst, .pred p :: rest, lookups =>
      (match P.eval p inst with
       | none => none
       | some b =>
           if conn = "AND" then
             if b then P.eval_wrapper conn inst rest lookups else some false
           else
             if b then some true else P.eval_wrapper conn inst rest lookups)
  | conn, inst, .pair l v :: rest, lookups =>
      P.eval_wrapper conn inst rest (lookups.set l v)
  | _, _, .other _ :: _, _ => none

end

/-- Modelled from the spec: the predicate construction surface (spec §6) is
inherited from Django's `Q` class, which is not part of this repository;
per spec §3 construction is "equivalent to building a small boolean-expression
AST from constructor arguments and combinator operators `&`/`|`/negation".
`P(lookup=value)` yields a non-negated AND node with one filter tuple. -/
def P.ofLookup (lookup : String) (v : Val) : P :=
  .mk "AND" false [.pair lookup v]

/-- Modelled from the spec: `A & B` combines two predicates under the AND
connector (spec §3/§6; the combinator itself lives in Django's `Q`). -/
def P.and (a b : P) : P := .mk "AND" false [.pred a, .pred b]

/-- Modelled from the spec: `A | B` combines two predicates under the OR
connector (spec §3/§6; the combinator itself lives in Django's `Q`). -/
def P.or (a b : P) : P := .mk "OR" false [.pred a, .pred b]

/-- Modelled from the spec: `~A` is the unary negation operator (spec §3/§6);
like Django's `__invert__` it wraps the operand in a fresh negated node. -/
def P.not (a : P) : P := .mk "AND" true [.pred a]

/-! ## Helper lemmas -/

/-- Values that are strings or `None` (the domain on which the string
operators are exception-free). -/
def isStrOrNull : Val → Bool
  | .null => true
  | .str _ => true
  | _ => false

/-- Values that are dates or `None` (the domain on which the calendar
operators are exception-free). -/
def isDateOrNull : Val → Bool
  | .null => true
  | .date _ _ _ _ => true
  | _ => false

/-- "The value sequence with all nulls removed" (used to state C2). -/
def filterNonNull (values : List Val) : List Val :=
  values.filter (fun v => !Val.beq v Val.null)

theorem pyAny_cons_congr (x : Option Bool) (l l' : List (Option Bool))
    (h : pyAny l = pyAny l') : pyAny (x :: l) = pyAny (x :: l') := by
  cases x with
  | none => rfl
  | some b => cases b <;> simp [pyAny, h]

theorem beq_null_eq_false {v : Val} (hv : v ≠ Val.null) :
    Val.beq v Val.null = false := by
  cases v <;> simp [Val.beq]
  exact absurd rfl hv

theorem anyValue_filter_nulls (step : Val → Option Bool) (values : List Val) :
    anyValue step (filterNonNull values) = anyValue step values := by
  induction values with
  | nil => rfl
  | cons v vs ih =>
    by_cases hv : v = Val.null
    · subst hv
      have hf : filterNonNull (Val.null :: vs) = filterNonNull vs := by
        simp [filterNonNull, List.filter_cons, Val.beq]
      rw [hf, ih]; rfl
    · have hf : filterNonNull (v :: vs) = v :: filterNonNull vs := by
        simp [filterNonNull, List.filter_cons, beq_null_eq_false hv]
      rw [hf]
      show pyAny (_ :: _) = pyAny (_ :: _)
      exact pyAny_cons_congr _ _ _ ih

theorem anyB_filter_nulls (g : Val → Bool) (hg : g Val.null = false)
    (values : List Val) : (filterNonNull values).any g = values.any g := by
  induction values with
  | nil => rfl
  | cons v vs ih =>
    by_cases hv : v = Val.null
    · subst hv
      have hf : filterNonNull (Val.null :: vs) = filterNonNull vs := by
        simp [filterNonNull, List.filter_cons, Val.beq]
      rw [hf, ih]
      simp [List.any_cons, hg]
    · have hf : filterNonNull (v :: vs) = v :: filterNonNull vs := by
        simp [filterNonNull, List.filter_cons, beq_null_eq_false hv]
      rw [hf]
      simp [List.any_cons, ih]

/-! ## C1 — connector identity on empty predicate nodes -/

/-- Claim C1, counterexample: the claim says an OR-predicate with zero
children evaluates to false; on the code it does not — `eval_wrapper` always
yields the node's merged lookup tree, which is empty here and matches
everything, so the empty OR node evaluates to true. -/
theorem c1_counterexample :
    P.eval (P.mk "OR" false []) (Val.int 0) ≠ some false := by decide

/-- Claim C1, amended: a predicate node with connector AND and zero children
evaluates to true for every instance, and a node with connector OR and zero
children ALSO evaluates to true (not false): the evaluator always includes
the node's merged lookup tree as a final operand, and an empty lookup tree
matches every instance. -/
theorem c1_amended_connector_identity (inst : Val) :
    P.eval (P.mk "AND" false []) inst = some true ∧
    P.eval (P.mk "OR" false []) inst = some true :=
  ⟨rfl, rfl⟩

/-! ## C4 — icontains is NOT case-insensitive on the candidate value -/

/-- Claim C4 (code bug): `_icontains` lowercases only the literal, not the
candidate value, so `icontains` with literal `"abc"` does NOT match the value
`"ABC"` — contradicting the case-insensitive substring semantics the operator
is named for (and which its siblings `_iexact`/`_istartswith`/`_iendswith`
implement by also lowercasing the value).  The first two conjuncts evaluate
the code at the failing input; the last shows the sibling `_iexact` treating
the same pair case-insensitively. -/
theorem c4_icontains_bug :
    LookupEvaluator.test "icontains" (Val.str "abc") [Val.str "ABC"] = some false ∧
    LookupEvaluator.test "icontains" (Val.str "abc") [Val.str "xabcy"] = some true ∧
    LookupEvaluator.test "iexact" (Val.str "abc") [Val.str "ABC"] = some true := by
  decide

/-! ## C7 — endswith lowercases the value but not the literal -/

theorem pyAny_step_cons (x : Option Bool) (b : Bool) (hx : x = some b)
    (l : List (Option Bool)) (r : Bool) (hl : pyAny l = some r) :
    pyAny (x :: l) = some (b || r) := by
  subst hx; cases b <;> simp [pyAny, hl]

/-- The `any`-shaped comparison functions compute the boolean `any` of a
per-value test over the sequence, provided the test raises on no non-null
element. -/
theorem anyValue_eq_some (step : Val → Option Bool) (g : Val → Bool)
    (values : List Val)
    (h : ∀ v ∈ values, v ≠ Val.null → step v = some (g v))
    (hnull : g Val.null = false) :
    anyValue step values = some (values.any g) := by
  induction values with
  | nil => rfl
  | cons v vs ih =>
    have htail : anyValue step vs = some (vs.any g) :=
      ih (fun w hw hwn => h w (List.mem_cons_of_mem _ hw) hwn)
    rw [List.any_cons]
    cases v
    case null =>
      rw [hnull, Bool.false_or]
      exact htail
    all_goals
      exact pyAny_step_cons _ _ (h _ (List.mem_cons_self _ _) (by simp)) _ _ htail

/-- Claim C7: the case-sensitive `endswith` operator lowercases each candidate
value but not the literal: over string-or-null value sequences it matches iff
some value `v` satisfies `lowercase(v).endswith(literal)`; in particular
literal `"B"` never matches value `"AB"` while literal `"b"` does. -/
theorem c7_endswith_quirk (lit : String) (values : List Val)
    (h : values.all isStrOrNull = true) :
    LookupEvaluator.test "endswith" (Val.str lit) values
      = some (values.any (fun v =>
          match v with
          | .str s => lit.data.isSuffixOf (s.data.map Char.toLower)
          | _ => false)) ∧
    LookupEvaluator.test "endswith" (Val.str "B") [Val.str "AB"] = some false ∧
    LookupEvaluator.test "endswith" (Val.str "b") [Val.str "AB"] = some true := by
  refine ⟨?_, by decide, by decide⟩
  show LookupEvaluator.endswith (Val.str lit) values = _
  refine anyValue_eq_some _ _ values ?_ rfl
  intro v hv hvn
  have hv2 := List.all_eq_true.mp h v hv
  cases v
  case null => exact absurd rfl hvn
  case str s => rfl
  all_goals simp [isStrOrNull] at hv2

/-- Witness for C7 at a concrete input. -/
theorem c7_witness :
    LookupEvaluator.test "endswith" (Val.str "b") [Val.null, Val.str "AB"]
      = some ([Val.null, Val.str "AB"].any (fun v =>
          match v with
          | .str s => "b".data.isSuffixOf (s.data.map Char.toLower)
          | _ => false)) ∧
    LookupEvaluator.test "endswith" (Val.str "B") [Val.str "AB"] = some false ∧
    LookupEvaluator.test "endswith" (Val.str "b") [Val.str "AB"] = some true :=
  c7_endswith_quirk "b" [Val.null, Val.str "AB"] (by decide)

/-! ## C8 — week_day uses the Django Sunday=1..Saturday=7 numbering -/

/-- Claim C8: `week_day` matches iff some non-null date value `v` satisfies
`(isoweekday(v) % 7) + 1 == literal` (Sunday=1 through Saturday=7); in
particular a Wednesday (ISO weekday 3) matches `week_day=4`. -/
theorem c8_week_day (lit : Val) (values : List Val)
    (h : values.all isDateOrNull = true) :
    LookupEvaluator.test "week_day" lit values
      = some (values.any (fun v =>
          match v with
          | .date _ _ _ wd => Val.beq (Val.int (Int.ofNat (wd % 7 + 1))) lit
          | _ => false)) ∧
    LookupEvaluator.test "week_day" (Val.int 4) [Val.date 2024 1 3 3] = some true := by
  refine ⟨?_, by decide⟩
  show LookupEvaluator.week_day lit values = _
  refine anyValue_eq_some _ _ values ?_ rfl
  intro v hv hvn
  have hv2 := List.all_eq_true.mp h v hv
  cases v
  case null => exact absurd rfl hvn
  case date y m d wd => rfl
  all_goals simp [isDateOrNull] at hv2

/-- Witness for C8 at a concrete input. -/
theorem c8_witness :
    LookupEvaluator.test "week_day" (Val.int 4) [Val.null, Val.date 2024 1 3 3]
      = some ([Val.null, Val.date 2024 1 3 3].any (fun v =>
          match v with
          | .date _ _ _ wd => Val.beq (Val.int (Int.ofNat (wd % 7 + 1))) (Val.int 4)
          | _ => false)) ∧
    LookupEvaluator.test "week_day" (Val.int 4) [Val.date 2024 1 3 3] = some true :=
  c8_week_day (Val.int 4) [Val.null, Val.date 2024 1 3 3] (by decide)

/-! ## C2 — null entries are skipped, except by exact and in -/

/-- Claim C2, counterexample: for operator `exact` with a `None` literal, a
null entry in the value sequence DOES cause a match (`self.value in values`
has no `None` guard), so removing nulls changes the result. -/
theorem c2_counterexample :
    LookupEvaluator.test "exact" Val.null [Val.null] ≠
      LookupEvaluator.test "exact" Val.null (filterNonNull [Val.null]) := by
  decide

/-- Claim C2, amended: for every recognized operator except `isnull`, null
entries in the value sequence never change the result — EXCEPT that `exact`
compares the literal itself against every entry (so a `None` literal matches
a null entry) and `in` intersects the raw sets (so a `None` in the literal
collection matches a null entry).  Under the extra hypotheses that the
`exact` literal is not `None` and the `in` literal collection contains no
`None`, the test over the value sequence equals the test over the sequence
with all nulls removed. -/
theorem c2_amended_nulls_skipped (query : String) (lit : Val) (values : List Val)
    (hq : query ∈ QUERY_TERMS) (hns : query ≠ "isnull")
    (hexact : query = "exact" → Val.beq Val.null lit = false)
    (hin : query = "in" →
      ((pyToSetElems lit).getD []).any (fun i => Val.beq i Val.null) = false) :
    LookupEvaluator.test query lit (filterNonNull values) =
      LookupEvaluator.test query lit values := by
  simp only [QUERY_TERMS, List.mem_cons, List.not_mem_nil, or_false] at hq
  rcases hq with rfl|rfl|rfl|rfl|rfl|rfl|rfl|rfl|rfl|rfl|rfl|rfl|rfl|rfl|rfl|rfl|rfl|rfl|rfl|rfl|rfl|rfl
  · -- exact
    show LookupEvaluator.exact lit (filterNonNull values) = LookupEvaluator.exact lit values
    unfold LookupEvaluator.exact
    refine congrArg some (anyB_filter_nulls _ ?_ values)
    exact hexact rfl
  · -- iexact
    show LookupEvaluator.iexact lit (filterNonNull values) = LookupEvaluator.iexact lit values
    unfold LookupEvaluator.iexact
    cases hpl : pyLowerS lit
    · rfl
    · exact anyValue_filter_nulls _ values
  · -- contains
    exact anyValue_filter_nulls _ values
  · -- icontains
    show LookupEvaluator.icontains lit (filterNonNull values) = LookupEvaluator.icontains lit values
    unfold LookupEvaluator.icontains
    cases hpl : pyLowerS lit
    · rfl
    · exact anyValue_filter_nulls _ values
  · -- gt
    exact anyValue_filter_nulls _ values
  · -- gte
    exact anyValue_filter_nulls _ values
  · -- lt
    exact anyValue_filter_nulls _ values
  · -- lte
    exact anyValue_filter_nulls _ values
  · -- in
    show LookupEvaluator.in_ lit (filterNonNull values) = LookupEvaluator.in_ lit values
    unfold LookupEvaluator.in_
    cases hse : pyToSetElems lit
    · rfl
    · rename_i items
      refine congrArg some (anyB_filter_nulls _ ?_ values)
      have h2 := hin rfl
      rw [hse] at h2
      simpa using h2
  · -- startswith
    exact anyValue_filter_nulls _ values
  · -- istartswith
    show LookupEvaluator.istartswith lit (filterNonNull values)
        = LookupEvaluator.istartswith lit values
    unfold LookupEvaluator.istartswith
    cases hpl : pyLowerS lit
    · rfl
    · exact anyValue_filter_nulls _ values
  · -- endswith
    exact anyValue_filter_nulls _ values
  · -- iendswith
    show LookupEvaluator.iendswith lit (filterNonNull values)
        = LookupEvaluator.iendswith lit values
    unfold LookupEvaluator.iendswith
    cases hpl : pyLowerS lit
    · rfl
    · exact anyValue_filter_nulls _ values
  · -- range
    exact anyValue_filter_nulls _ values
  · -- year
    exact anyValue_filter_nulls _ values
  · -- month
    exact anyValue_filter_nulls _ values
  · -- day
    exact anyValue_filter_nulls _ values
  · -- week_day
    exact anyValue_filter_nulls _ values
  · -- isnull
    exact absurd rfl hns
  · -- search
    exact anyValue_filter_nulls _ values
  · -- regex
    show LookupEvaluator.regex lit (filterNonNull values) = LookupEvaluator.regex lit values
    unfold LookupEvaluator.regex
    cases lit <;> first | rfl | exact anyValue_filter_nulls _ values
  · -- iregex
    show LookupEvaluator.iregex lit (filterNonNull values) = LookupEvaluator.iregex lit values
    unfold LookupEvaluator.iregex
    cases lit <;> first | rfl | exact anyValue_filter_nulls _ values

/-- Witness for C2 (amended) at a concrete input. -/
theorem c2_witness :
    LookupEvaluator.test "gt" (Val.int 3) (filterNonNull [Val.null, Val.int 5]) =
      LookupEvaluator.test "gt" (Val.int 3) [Val.null, Val.int 5] :=
  c2_amended_nulls_skipped "gt" (Val.int 3) [Val.null, Val.int 5]
    (by decide) (by decide) (by decide) (by decide)

/-! ## C3 — De Morgan fails: the merged (empty) lookup child joins every node -/

/-- An empty lookup tree matches every instance (the lone empty candidate row
has no lookups to fail). -/
theorem emptyLookup_eval (inst : Val) : (LookupNode.mk none []).eval inst = some true := rfl

theorem eval_and_nodes (A B : P) (inst : Val) (a b : Bool)
    (ha : P.eval A inst = some a) (hb : P.eval B inst = some b) :
    P.eval (P.and A B) inst = some (a && b) := by
  cases a <;> cases b <;>
    simp [P.and, P.eval, P.eval_wrapper, ha, hb, emptyLookup_eval]

theorem eval_or_nodes (A B : P) (inst : Val) (a b : Bool)
    (ha : P.eval A inst = some a) (hb : P.eval B inst = some b) :
    P.eval (P.or A B) inst = some true := by
  cases a <;> cases b <;>
    simp [P.or, P.eval, P.eval_wrapper, ha, hb, emptyLookup_eval]

theorem eval_not_node (A : P) (inst : Val) (a : Bool)
    (ha : P.eval A inst = some a) :
    P.eval (P.not A) inst = some (!a) := by
  cases a <;> simp [P.not, P.eval, P.eval_wrapper, ha, emptyLookup_eval]

/-- Claim C3, counterexample: with A and B both the empty AND predicate
(which matches everything) and any instance, `not(A AND B)` evaluates false
while `(not A) OR (not B)` evaluates true, so the first De Morgan identity
fails on the code. -/
theorem c3_counterexample :
    P.eval (P.not (P.and (P.mk "AND" false []) (P.mk "AND" false []))) (Val.int 0) ≠
      P.eval (P.or (P.not (P.mk "AND" false [])) (P.not (P.mk "AND" false []))) (Val.int 0) := by
  decide

/-- Claim C3, amended: for predicates A, B whose evaluations succeed with
booleans a, b: `not(A AND B)` evaluates to `!(a && b)` and
`(not A) AND (not B)` to `!a && !b`, but `(not A) OR (not B)` ALWAYS
evaluates to true and `not(A OR B)` ALWAYS to false — because the evaluator
appends the node's merged lookup tree (empty here, hence matching every
instance) as an extra operand of the connector, every OR combination of two
predicates is true.  Hence each De Morgan identity holds only when the
corresponding sides coincide (`a && b` false for the first, `a || b` true for
the second), not in general. -/
theorem c3_amended_de_morgan (A B : P) (inst : Val) (a b : Bool)
    (ha : P.eval A inst = some a) (hb : P.eval B inst = some b) :
    P.eval (P.not (P.and A B)) inst = some (!(a && b)) ∧
    P.eval (P.or (P.not A) (P.not B)) inst = some true ∧
    P.eval (P.not (P.or A B)) inst = some false ∧
    P.eval (P.and (P.not A) (P.not B)) inst = some (!a && !b) := by
  have hand := eval_and_nodes A B inst a b ha hb
  have hor := eval_or_nodes A B inst a b ha hb
  have hna := eval_not_node A inst a ha
  have hnb := eval_not_node B inst b hb
  refine ⟨?_, ?_, ?_, ?_⟩
  · exact eval_not_node _ inst (a && b) hand
  · exact eval_or_nodes _ _ inst (!a) (!b) hna hnb
  · simpa using eval_not_node _ inst true hor
  · exact eval_and_nodes _ _ inst (!a) (!b) hna hnb

/-- Witness for C3 (amended) at a concrete input. -/
theorem c3_witness :
    P.eval (P.not (P.and (P.mk "AND" false []) (P.mk "AND" false []))) (Val.int 0)
        = some (!(true && true)) ∧
    P.eval (P.or (P.not (P.mk "AND" false [])) (P.not (P.mk "AND" false []))) (Val.int 0)
        = some true ∧
    P.eval (P.not (P.or (P.mk "AND" false []) (P.mk "AND" false []))) (Val.int 0)
        = some false ∧
    P.eval (P.and (P.not (P.mk "AND" false [])) (P.not (P.mk "AND" false []))) (Val.int 0)
        = some (!true && !true) :=
  c3_amended_de_morgan _ _ _ true true rfl rfl

/-! ## C9 — the malformed-child error is raised during evaluation -/

/-- Claim C9, counterexample: constructing a predicate node with a raw child
that is neither a nested predicate nor a (lookup, value) pair succeeds (the
node is plain data), and it is `eval` that raises the `ValueError`
(modelled by `none`): the error surfaces during evaluation, not at
construction/merge time as the claim states. -/
theorem c9_counterexample :
    P.eval (P.mk "AND" false [RawChild.other "bad"]) (Val.int 0) = none := by
  decide

/-- Claim C9, amended: the malformed-expression error is raised during
evaluation, when `eval` consumes the node's children through `eval_wrapper`
— construction stores children unvalidated.  Any evaluation that reaches a
malformed child raises; one that short-circuits before reaching it does not
(second conjunct: an OR node whose first child already matched never visits
the malformed child). -/
theorem c9_amended_eval_time_error (conn : String) (neg : Bool) (tag : String)
    (rest : List RawChild) (inst : Val)
    (hconn : conn = "AND" ∨ conn = "OR") :
    P.eval (P.mk conn neg (RawChild.other tag :: rest)) inst = none ∧
    P.eval (P.mk "OR" false
        [RawChild.pred (P.mk "AND" false []), RawChild.other "bad"]) (Val.int 0)
      = some true := by
  refine ⟨?_, by decide⟩
  have h : P.eval_wrapper conn inst (RawChild.other tag :: rest) (.mk none []) = none := by
    simp [P.eval_wrapper]
  rcases hconn with rfl | rfl <;> simp [P.eval, h]

/-- Witness for C9 (amended) at a concrete input. -/
theorem c9_witness :
    P.eval (P.mk "OR" true (RawChild.other "junk" :: [])) (Val.str "x") = none ∧
    P.eval (P.mk "OR" false
        [RawChild.pred (P.mk "AND" false []), RawChild.other "bad"]) (Val.int 0)
      = some true :=
  c9_amended_eval_time_error "OR" true "junk" [] (Val.str "x") (Or.inr rfl)

/-! ## C10 — only a final operator-named component is stripped -/

/-- Claim C10: the operator-stripping step (`strip_query`, used by
`convert_to_query_values_node` on every stored path) removes at most the last
parsed component, and only when that last component names a recognized
operator; every non-final component survives verbatim.  Concretely: the
recognized operator name `"year"` in non-final position is kept
(`["year", "val"]` is untouched) while the same name in final position is
stripped (`["date", "year"]` becomes `["date"]`); and end to end, a
predicate on `"year__val"` traverses a relation field named `year` through
the object graph like any other field. -/
theorem c10_strip_last_component_only :
    (∀ (comps stripped : List String), strip_query comps = some stripped →
      (LookupComponent.is_query (comps.getLast?.getD "") = true ∧
        stripped = comps.dropLast) ∨
      (LookupComponent.is_query (comps.getLast?.getD "") = false ∧
        stripped = comps)) ∧
    strip_query ["year", "val"] = some ["year", "val"] ∧
    LookupComponent.is_query "year" = true ∧
    strip_query ["date", "year"] = some ["date"] ∧
    P.eval (P.mk "AND" false [RawChild.pair "year__val" (Val.int 7)])
      (Val.obj [("year", [Val.obj [("val", [Val.int 7])]])]) = some true ∧
    P.eval (P.mk "AND" false [RawChild.pair "year__val" (Val.int 7)])
      (Val.obj [("year", [Val.obj [("val", [Val.int 8])]])]) = some false := by
  refine ⟨?_, by decide, by decide, by decide, by decide, by decide⟩
  intro comps stripped h
  unfold strip_query at h
  cases hl : comps.getLast? with
  | none => rw [hl] at h; exact absurd h (by simp)
  | some last =>
    rw [hl] at h
    simp only [Option.some_inj] at h
    cases hq : LookupComponent.is_query last with
    | true =>
      left
      constructor
      · simp [hl, hq]
      · rw [← h]; simp [hq]
    | false =>
      right
      constructor
      · simp [hl, hq]
      · rw [← h]; simp [hq]

/-- Witness for C10 at a concrete input. -/
theorem c10_witness :
    (LookupComponent.is_query ((["date", "year"] : List String).getLast?.getD "") = true ∧
      (["date"] : List String) = (["date", "year"] : List String).dropLast) ∨
    (LookupComponent.is_query ((["date", "year"] : List String).getLast?.getD "") = false ∧
      (["date"] : List String) = ["date", "year"]) :=
  c10_strip_last_component_only.1 ["date", "year"] ["date"] (by decide)

/-! ## C5 — fan-out is existential across rows, conjunctive within a row -/

theorem pyAny_eq_true_iff (xs : List (Option Bool)) (h : ∀ x ∈ xs, x ≠ none) :
    (pyAny xs = some true ↔ some true ∈ xs) := by
  induction xs with
  | nil => simp [pyAny]
  | cons x rest ih =>
    have hx := h x (List.mem_cons_self _ _)
    have hrest := ih (fun y hy => h y (List.mem_cons_of_mem _ hy))
    cases x with
    | none => exact absurd rfl hx
    | some b =>
      cases b
      · simp only [pyAny, List.mem_cons]
        rw [hrest]
        simp
      · simp [pyAny]

set_option maxHeartbeats 2000000

/-- Claim C5: fan-out over a multi-valued relation is existential across
candidate rows and conjunctive within a row.  First conjunct: for an instance
whose relation `rel` resolves to two rows with `val` fields `a` and `b`, the
predicate with single lookup `rel__val` and literal 5 matches iff
`a == 5 || b == 5`.  Second conjunct: in general (in the crash-free case) the
merged lookup tree matches iff at least one candidate row of the
cartesian-product join passes all of its per-row tests. -/
theorem c5_fanout_existential :
    (∀ a b : Int,
      P.eval (P.mk "AND" false [RawChild.pair "rel__val" (Val.int 5)])
        (Val.obj [("rel", [Val.obj [("val", [Val.int a])],
                           Val.obj [("val", [Val.int b])]])])
        = some (a == 5 || b == 5)) ∧
    (∀ (n qn : LookupNode) (inst : Val),
      n.convert_to_query_values_node = some qn →
      (∀ r ∈ qn.values inst, rowMatches n r ≠ none) →
      (n.eval inst = some true ↔ ∃ r ∈ qn.values inst, rowMatches n r = some true)) := by
  constructor
  · intro a b
    have hred : P.eval (P.mk "AND" false [RawChild.pair "rel__val" (Val.int 5)])
        (Val.obj [("rel", [Val.obj [("val", [Val.int a])],
                           Val.obj [("val", [Val.int b])]])])
        = (match pyAny [pyAll [pyAll [some (a == 5 || false)]],
                        pyAll [pyAll [some (b == 5 || false)]]] with
           | none => none
           | some r => some r) := rfl
    rw [hred]
    cases ha : a == 5 <;> cases hb : b == 5 <;> simp [pyAll, pyAny, ha, hb]
  · intro n qn inst hconv hnc
    have hev : n.eval inst = pyAny ((qn.values inst).map (rowMatches n)) := by
      simp only [LookupNode.eval, hconv]
    rw [hev]
    rw [pyAny_eq_true_iff]
    · constructor
      · intro hmem
        rcases List.mem_map.mp hmem with ⟨r, hr, hr2⟩
        exact ⟨r, hr, hr2⟩
      · rintro ⟨r, hr, hr2⟩
        exact List.mem_map.mpr ⟨r, hr, hr2⟩
    · intro x hx
      rcases List.mem_map.mp hx with ⟨r, hr, rfl⟩
      exact hnc r hr

/-- Witness for C5 at a concrete input. -/
theorem c5_witness :
    ((LookupNode.mk none [("rel", LookupNode.mk (some (Val.int 5)) [])]).eval
        (Val.obj [("rel", [Val.int 5])]) = some true ↔
      ∃ r ∈ (LookupNode.mk none [("rel", LookupNode.mk (some Val.get) [])]).values
          (Val.obj [("rel", [Val.int 5])]),
        rowMatches (LookupNode.mk none [("rel", LookupNode.mk (some (Val.int 5)) [])]) r
          = some true) :=
  c5_fanout_existential.2
    (LookupNode.mk none [("rel", LookupNode.mk (some (Val.int 5)) [])])
    (LookupNode.mk none [("rel", LookupNode.mk (some Val.get) [])])
    (Val.obj [("rel", [Val.int 5])]) rfl (by decide)

set_option maxHeartbeats 200000

/-! ## C6 — an empty traversal branch empties the whole row set -/

theorem branchesL_mem (cs : List (String × LookupNode)) (p : String × LookupNode)
    (hp : p ∈ cs) (inst : Val) :
    (p.1, (LookupComponent.values_list p.1 inst).flatMap (fun o => p.2.values o))
      ∈ LookupNode.branchesL cs inst := by
  obtain ⟨c, child⟩ := p
  induction cs with
  | nil => exact absurd hp (List.not_mem_nil _)
  | cons q rest ih =>
    rcases List.mem_cons.mp hp with heq | hmem
    · cases heq
      exact List.mem_cons_self _ _
    · exact List.mem_cons_of_mem _ (ih hmem)

theorem cartProd_eq_nil {α : Type} (ls : List (List α)) (l : List α)
    (hl : l ∈ ls) (hnil : l = []) : cartProd ls = [] := by
  subst hnil
  induction ls with
  | nil => exact absurd hl (List.not_mem_nil _)
  | cons x rest ih =>
    rcases List.mem_cons.mp hl with heq | hmem
    · rw [← heq]
      rfl
    · show x.flatMap (fun a => (cartProd rest).map (fun combo => a :: combo)) = []
      rw [ih hmem]
      simp

/-- If some branch of a node resolves to zero candidate sub-trees, the
cartesian product over all branches is empty, so the node produces no
candidate rows at all. -/
theorem values_eq_nil_of_empty_branch (value : Option Val)
    (cs : List (String × LookupNode)) (inst : Val) (p : String × LookupNode)
    (hp : p ∈ cs)
    (hempty : (LookupComponent.values_list p.1 inst).flatMap (fun o => p.2.values o) = []) :
    (LookupNode.mk value cs).values inst = [] := by
  have hmem := branchesL_mem cs p hp inst
  rw [hempty] at hmem
  have hmem2 : ([] : List (String × LookupNode)) ∈
      (LookupNode.branchesL cs inst).map (fun b => b.2.map (fun n => (b.1, n))) :=
    List.mem_map.mpr ⟨(p.1, []), hmem, rfl⟩
  show (cartProd ((LookupNode.branchesL cs inst).map
      (fun b => b.2.map (fun n => (b.1, n))))).map _ = []
  rw [cartProd_eq_nil _ _ hmem2 rfl]
  rfl

/-- Claim C6: if any traversal branch of a node resolves to zero values, the
fan-out engine produces zero candidate rows for that node (first conjunct),
and a lookup tree with no candidate rows evaluates to false before negation
(second conjunct) — distinct from a null-valued field, which yields the
single value null (fourth conjunct; third shows an empty to-many relation
resolving to zero values).  The last conjunct runs the pipeline end to end on
an instance with an empty relation. -/
theorem c6_empty_branch_no_rows :
    (∀ (value : Option Val) (cs : List (String × LookupNode)) (inst : Val)
        (p : String × LookupNode), p ∈ cs →
      (LookupComponent.values_list p.1 inst).flatMap (fun o => p.2.values o) = [] →
      (LookupNode.mk value cs).values inst = []) ∧
    (∀ (n qn : LookupNode) (inst : Val),
      n.convert_to_query_values_node = some qn →
      qn.values inst = [] →
      n.eval inst = some false) ∧
    LookupComponent.values_list "rel" (Val.obj [("rel", [])]) = [] ∧
    LookupComponent.values_list "f" (Val.obj [("f", [Val.null])]) = [Val.null] ∧
    P.eval (P.mk "AND" false [RawChild.pair "rel__val" (Val.int 5)])
      (Val.obj [("rel", [])]) = some false := by
  refine ⟨values_eq_nil_of_empty_branch, ?_, rfl, rfl, by decide⟩
  intro n qn inst hconv hrows
  simp only [LookupNode.eval, hconv, hrows]
  rfl

/-- Witness for C6 at a concrete input. -/
theorem c6_witness :
    (LookupNode.mk none [("rel", LookupNode.mk (some Val.get) [])]).values
        (Val.obj [("rel", [])]) = [] ∧
    (LookupNode.mk none [("rel", LookupNode.mk (some (Val.int 5)) [])]).eval
        (Val.obj [("rel", [])]) = some false :=
  ⟨c6_empty_branch_no_rows.1 none [("rel", LookupNode.mk (some Val.get) [])]
      (Val.obj [("rel", [])]) ("rel", LookupNode.mk (some Val.get) [])
      (List.mem_cons_self _ _) rfl,
   c6_empty_branch_no_rows.2.1
      (LookupNode.mk none [("rel", LookupNode.mk (some (Val.int 5)) [])])
      (LookupNode.mk none [("rel", LookupNode.mk (some Val.get) [])])
      (Val.obj [("rel", [])]) rfl rfl⟩
